import Mathlib

/-!
Verification of the core logic of an ear-training web application: the
tonal model (solfege.ts), the cadence scheduler (AudioService.ts), random
target selection, live-mode attempt classification with its streak policy,
and the pitch-detection stabilization pipeline of the live-detection hook.
All definitions are shallow embeddings of the TypeScript sources; numbers
that the source manipulates as JS floating-point values are modelled as
rationals, JS integer remainder as truncated remainder, and the black-box
pitch estimator output as part of each detection frame.
-/

namespace EarTraining

/-- JavaScript remainder on integers: truncated division remainder whose
sign follows the dividend, as produced by the % operator in the source. -/
def jsMod (a b : Int) : Int := Int.tmod a b

/-- Entry of the solfege table: diatonic flag and syllable. -/
structure SolfegeInfo where
  diatonic : Bool
  syllable : String
deriving DecidableEq

/-- SOLFEGE_MAP from solfege.ts: the fixed 12-entry relative-degree table;
indexing with any other number yields no entry (undefined in JS). -/
def SOLFEGE_MAP : Int → Option SolfegeInfo
  | 0 => some ⟨true, "Do"⟩
  | 1 => some ⟨false, "Ra"⟩
  | 2 => some ⟨true, "Re"⟩
  | 3 => some ⟨false, "Me"⟩
  | 4 => some ⟨true, "Mi"⟩
  | 5 => some ⟨true, "Fa"⟩
  | 6 => some ⟨false, "Fi"⟩
  | 7 => some ⟨true, "Sol"⟩
  | 8 => some ⟨false, "Le"⟩
  | 9 => some ⟨true, "La"⟩
  | 10 => some ⟨false, "Te"⟩
  | 11 => some ⟨true, "Ti"⟩
  | _ => none

/-- KEY_TO_SEMITONE from solfege.ts; keys absent from the record give no
entry. -/
def KEY_TO_SEMITONE : String → Option Int
  | "C" => some 0
  | "G" => some 7
  | "D" => some 2
  | "A" => some 9
  | "E" => some 4
  | "B" => some 11
  | "F#" => some 6
  | "Db" => some 1
  | "Ab" => some 8
  | "Eb" => some 3
  | "Bb" => some 10
  | "F" => some 5
  | _ => none

/-- computeRoot from solfege.ts: root pitch for a key name anchored at
C4 = 60; the JS ?? operator defaults unknown keys to semitone 0. -/
def computeRoot (key : String) : Int :=
  let base : Int := 60
  let baseSemitone := jsMod base 12
  let semitone := (KEY_TO_SEMITONE key).getD 0
  let offset := jsMod (semitone - baseSemitone + 12) 12
  base + offset

/-- Tempo classes shared by cadence speed and autoplay speed. -/
inductive CadenceSpeed
  | slow
  | medium
  | fast
deriving DecidableEq

/-- TEMPO_VALUES from solfege.ts: seconds per cadence chord slot. -/
def TEMPO_VALUES : CadenceSpeed → ℚ
  | .slow => 9 / 10
  | .medium => 6 / 10
  | .fast => 4 / 10

/-- One scheduled tone onset: pitch, onset offset relative to the cadence
base time (seconds), and duration (seconds). -/
structure ToneEvent where
  pitch : Int
  rel : ℚ
  dur : ℚ
deriving DecidableEq

/-- scheduleCadence from AudioService.ts: builds the I, IV, V, I triads on
the key root and schedules the three tones of each chord at the running
relative offset with duration 0.9 * tempo, advancing the offset by
chordDuration + chordGap after every chord; the pair holds the scheduled
events and the final offset, which the source returns as lengthSec. -/
def scheduleCadence (key : String) (speed : CadenceSpeed) : List ToneEvent × ℚ :=
  let root := computeRoot key
  let tempo := TEMPO_VALUES speed
  let chordI := [root, root + 4, root + 7]
  let chordIV := [root + 5, root + 9, root + 12]
  let chordV := [root + 7, root + 11, root + 14]
  let chordDuration := 9 / 10 * tempo
  let chordGap := 1 / 10 * tempo
  let seq := [chordI, chordIV, chordV, chordI]
  seq.foldl
    (fun acc ch =>
      (acc.1 ++ ch.map (fun n => ⟨n, acc.2, chordDuration⟩), acc.2 + chordDuration + chordGap))
    ([], 0)

/-- Note-mode filter for target selection. -/
inductive NoteMode
  | diatonic
  | non
  | chromatic
deriving DecidableEq

/-- Loop of chooseTarget from the target-selection module: every attempt
draws a uniform candidate in [low, high] (the draw at index i is a real in
[0, 1) supplied by the draws argument, mirroring Math.random), skips an
immediate repeat of prev, skips relative degrees without a solfege entry,
and applies the note-mode filter; structural recursion on the remaining
attempt budget replaces the bounded for-loop. -/
def chooseTargetAux (low high keyRoot : Int) (noteMode : NoteMode)
    (prev : Option Int) (draws : Nat → ℚ) : Nat → Nat → Option Int
  | 0, _ => none
  | fuel + 1, i =>
    let cand := ⌊draws i * ((high : ℚ) - (low : ℚ) + 1)⌋ + low
    if prev = some cand then chooseTargetAux low high keyRoot noteMode prev draws fuel (i + 1)
    else
      let rel := jsMod (cand - keyRoot + 1200) 12
      match SOLFEGE_MAP rel with
      | none => chooseTargetAux low high keyRoot noteMode prev draws fuel (i + 1)
      | some info =>
        if noteMode = NoteMode.diatonic ∧ info.diatonic = false then
          chooseTargetAux low high keyRoot noteMode prev draws fuel (i + 1)
        else if noteMode = NoteMode.non ∧ info.diatonic = true then
          chooseTargetAux low high keyRoot noteMode prev draws fuel (i + 1)
        else some cand

/-- chooseTarget from the target-selection module; the source gives
maxAttempts a default of 80. -/
def chooseTarget (low high keyRoot : Int) (noteMode : NoteMode) (prev : Option Int)
    (draws : Nat → ℚ) (maxAttempts : Nat) : Option Int :=
  chooseTargetAux low high keyRoot noteMode prev draws maxAttempts 0

/-- Outcome of comparing a stabilized detected pitch against the target. -/
inductive AttemptOutcome
  | exact
  | near
  | wrong
deriving DecidableEq

/-- Attempt classification as performed by the live detection evaluation
effect of the App: exact when the distance |detected - target| is zero,
near when the pitches differ but the relative degrees against the key root
agree, wrong otherwise. -/
def classifyOutcome (root target detected : Int) : AttemptOutcome :=
  let targetRel := jsMod (target - root + 1200) 12
  let userRel := jsMod (detected - root + 1200) 12
  if (detected - target).natAbs = 0 then .exact
  else if detected ≠ target ∧ userRel = targetRel then .near
  else .wrong

/-- Streak update performed by the first-attempt branch of the live
detection evaluation effect: on success (exact, or octave-equivalent with
the strict toggle off) the streak advances only for a true exact match; a
near outcome resets the streak only under the strict toggle; a wrong
outcome always resets it. -/
def liveStreakAfterFirstAttempt (liveStrict : Bool) (liveStreak : Nat)
    (root target detected : Int) : Nat :=
  let targetRel := jsMod (target - root + 1200) 12
  let userRel := jsMod (detected - root + 1200) 12
  if (detected - target).natAbs = 0 ∨
     ((detected ≠ target ∧ userRel = targetRel) ∧ liveStrict = false) then
    if (detected - target).natAbs = 0 then liveStreak + 1 else liveStreak
  else if detected ≠ target ∧ userRel = targetRel then
    if liveStrict = true ∧ liveStreak ≠ 0 then 0 else liveStreak
  else
    if liveStreak ≠ 0 then 0 else liveStreak

/-- Low end of the empirically reliable detection window (E1). -/
def DETECT_MIN : Int := 28

/-- High end of the empirically reliable detection window (D7). -/
def DETECT_MAX : Int := 98

/-- Idle timeout before the stabilized highlight is cleared (ms). -/
def CLEAR_ON_IDLE_MS : ℚ := 1400

/-- Sensitivity profile of the live-detection hook: one row of the numeric
threshold arrays (clarity, RMS, stable frames, stable ms, jitter span,
clarity range). The adaptive auto mode continuously rederives such a tuple
from ambient baselines and is not modelled; the claims under study concern
the fixed numeric profiles. -/
structure SensProfile where
  MIN_CLARITY : ℚ
  AMP_THRESHOLD : ℚ
  REQUIRED_STABLE_FRAMES : Nat
  REQUIRED_STABLE_MS : ℚ
  MAX_JITTER_SPAN : Int
  CLARITY_RANGE_LIMIT : ℚ
deriving DecidableEq

/-- Sensitivity row 0 (Low, strict). -/
def sensProfileLow : SensProfile :=
  ⟨90 / 100, 12 / 1000, 4, 140, 1, 50 / 1000⟩

/-- Sensitivity row 1 (Medium, the default). -/
def sensProfileMedium : SensProfile :=
  ⟨88 / 100, 9 / 1000, 3, 100, 1, 70 / 1000⟩

/-- Sensitivity row 2 (High, permissive). -/
def sensProfileHigh : SensProfile :=
  ⟨84 / 100, 5 / 1000, 2, 70, 2, 90 / 1000⟩

/-- One detection-loop iteration worth of input: the frame RMS level, the
black-box estimator output (frequency and clarity) together with its
already-rounded midi conversion, and the clock reading in milliseconds. -/
structure Frame where
  rms : ℚ
  freq : ℚ
  clarity : ℚ
  midi : Int
  now : ℚ
deriving DecidableEq

/-- Mutable state of the detection loop: the rolling pitch and clarity
windows, stability bookkeeping, and the published raw, stabilized and
effective pitch values. lastStableAt uses 0 as the unset sentinel exactly
as the JS code treats the ref as falsy. -/
structure DState where
  recentMidi : List Int
  clarityHistory : List ℚ
  stableStart : Option ℚ
  lastDetected : Option Int
  detectedMidiState : Option Int
  rawMidiState : Option Int
  lastStableAt : ℚ
  effectiveMidi : Option Int
deriving DecidableEq

/-- Detection state at loop start. -/
def initDState : DState := ⟨[], [], none, none, none, none, 0, none⟩

/-- Rolling push keeping the last six entries (push, then shift when the
length exceeds six). -/
def push6 (l : List Int) (x : Int) : List Int :=
  let l2 := l ++ [x]
  if 6 < l2.length then l2.drop 1 else l2

/-- Rolling push keeping the last twelve entries. -/
def push12 (l : List ℚ) (x : ℚ) : List ℚ :=
  let l2 := l ++ [x]
  if 12 < l2.length then l2.drop 1 else l2

/-- Math.max over a pitch window; only ever applied to nonempty windows. -/
def listMax : List Int → Int
  | [] => 0
  | x :: xs => xs.foldl max x

/-- Math.min over a pitch window; only ever applied to nonempty windows. -/
def listMin : List Int → Int
  | [] => 0
  | x :: xs => xs.foldl min x

/-- Jitter span of the recent-pitch window. -/
def spanOf (l : List Int) : Int := listMax l - listMin l

/-- Math.max over the clarity window. -/
def qmax : List ℚ → ℚ
  | [] => 0
  | x :: xs => xs.foldl max x

/-- Math.min over the clarity window. -/
def qmin : List ℚ → ℚ
  | [] => 0
  | x :: xs => xs.foldl min x

/-- Amplitude-forgiveness factor applied to the gate for high pitches. -/
def dynFactor (midi : Int) : ℚ :=
  if 92 ≤ midi then 1 / 2 else if 84 ≤ midi then 65 / 100 else 1

/-- Decidability of the promotion timing condition over an optional
timestamp. -/
instance decidableStableSince (o : Option ℚ) (c : ℚ → Prop) [DecidablePred c] :
    Decidable (∃ t, o = some t ∧ c t) :=
  match o with
  | none => isFalse (by simp)
  | some t =>
    if h : c t then isTrue ⟨t, rfl, h⟩
    else isFalse (by simp [h])

/-- Stability bookkeeping of detectionStep, applied to the state whose
clarity and pitch windows already contain the accepted frame candidate:
while the jitter span and clarity range stay within tolerance the
stability timer runs (restarted on the first frame or when the candidate
differs from a previously published stabilized pitch), and a candidate
differing from the published stabilized pitch is promoted once the frame
count and elapsed-time thresholds are both met; outside tolerance the
timer is reset. -/
def stabilityUpdate (P : SensProfile) (s2 : DState) (f : Frame) : DState :=
  if spanOf s2.recentMidi ≤ P.MAX_JITTER_SPAN ∧
     (qmax s2.clarityHistory - qmin s2.clarityHistory ≤ P.CLARITY_RANGE_LIMIT ∨
      s2.recentMidi.length < 4) then
    let stableStart :=
      if s2.stableStart = none ∨
         (s2.lastDetected ≠ none ∧ s2.lastDetected ≠ some f.midi) then
        some f.now
      else s2.stableStart
    let s3 : DState := { s2 with stableStart := stableStart }
    if (P.REQUIRED_STABLE_FRAMES ≤ s2.recentMidi.length ∧
        spanOf s2.recentMidi ≤ P.MAX_JITTER_SPAN) ∧
       (∃ t0, stableStart = some t0 ∧ P.REQUIRED_STABLE_MS ≤ f.now - t0) then
      if s3.lastDetected ≠ some f.midi then
        { s3 with
          lastDetected := some f.midi
          detectedMidiState := some f.midi
          lastStableAt := f.now }
      else s3
    else s3
  else { s2 with stableStart := none }

/-- Pitch-estimation and stabilization phase of detectionStep in the
live-detection hook: behind the permissive pre-gate, the clarity and
frequency gates, the detectable window and the dynamic amplitude gate, the
frame candidate is published as the raw value and pushed into the clarity
and jitter windows, after which the stability bookkeeping runs. -/
def pitchPhase (P : SensProfile) (s : DState) (f : Frame) : DState :=
  if P.AMP_THRESHOLD * (45 / 100) < f.rms then
    if P.MIN_CLARITY ≤ f.clarity ∧ 40 < f.freq ∧ f.freq < 2500 then
      if DETECT_MIN ≤ f.midi ∧ f.midi ≤ DETECT_MAX then
        let s1 : DState := { s with rawMidiState := some f.midi }
        if P.AMP_THRESHOLD * dynFactor f.midi ≤ f.rms then
          stabilityUpdate P
            { s1 with
              clarityHistory := push12 s1.clarityHistory f.clarity
              recentMidi := push6 s1.recentMidi f.midi } f
        else { s1 with clarityHistory := [] }
      else s
    else s
  else s

/-- Idle-fade phase of detectionStep: once a stabilized pitch exists, no
promotion has refreshed it for longer than the idle timeout, and the frame
RMS is below half the amplitude threshold, the stabilized pitch and the
effective highlight are cleared. -/
def idlePhase (P : SensProfile) (s : DState) (f : Frame) : DState :=
  if s.lastStableAt ≠ 0 ∧ CLEAR_ON_IDLE_MS < f.now - s.lastStableAt ∧
     f.rms < P.AMP_THRESHOLD * (1 / 2) then
    { s with
      lastStableAt := 0
      lastDetected := none
      detectedMidiState := none
      effectiveMidi := none }
  else s

/-- Effective-highlight phase of detectionStep. The animation-frame loop
re-registers the closure captured when the loop started, so the React
state reads of rawMidiState and effectiveMidi inside this block are
frozen at their initial null values; only the refs (the stabilized pitch
and the stability timer) are read fresh. With those frozen null reads the
raw-fallback branch (guarded by a non-null rawMidiState read) and the
explicit clear branch (guarded by a non-null effectiveMidi read) are
never taken, and the guard comparing the effectiveMidi read with the
stabilized pitch is always true, so the block as executed only copies a
present stabilized pitch into the effective display. -/
def effectivePhase (s : DState) (f : Frame) : DState :=
  match s.lastDetected with
  | some m => { s with effectiveMidi := some m }
  | none => s

/-- One animation-frame iteration of the live-detection hook, in source
order: pitch estimation and stabilization, idle fade, then the effective
highlight update. Ref cells are read and written fresh; React state
setters update the published fields, while React state reads inside the
perpetually re-registered loop closure see the initial null values (see
effectivePhase). -/
def detectionStep (P : SensProfile) (s : DState) (f : Frame) : DState :=
  effectivePhase (idlePhase P (pitchPhase P s f) f) f

/-- Detection loop run over a list of frames from the initial state. -/
def runDetect (P : SensProfile) (frames : List Frame) : DState :=
  frames.foldl (detectionStep P) initDState

/-- A frame that passes every acceptance gate of the pitch phase. -/
def gatesPass (P : SensProfile) (f : Frame) : Prop :=
  P.AMP_THRESHOLD * (45 / 100) < f.rms ∧ P.MIN_CLARITY ≤ f.clarity ∧
  40 < f.freq ∧ f.freq < 2500 ∧ DETECT_MIN ≤ f.midi ∧ f.midi ≤ DETECT_MAX ∧
  P.AMP_THRESHOLD * dynFactor f.midi ≤ f.rms

theorem jsMod_eq_emod (a b : Int) (ha : 0 ≤ a) (hb : 0 ≤ b) : jsMod a b = a % b :=
  Int.tmod_eq_emod ha hb

theorem keySemitone_bounds (K : String) :
    0 ≤ (KEY_TO_SEMITONE K).getD 0 ∧ (KEY_TO_SEMITONE K).getD 0 ≤ 11 := by
  unfold KEY_TO_SEMITONE
  split <;> decide

theorem computeRoot_closed (K : String) :
    computeRoot K = 60 + (KEY_TO_SEMITONE K).getD 0 := by
  obtain ⟨h0, h11⟩ := keySemitone_bounds K
  have hdef : computeRoot K =
      60 + jsMod ((KEY_TO_SEMITONE K).getD 0 - jsMod 60 12 + 12) 12 := rfl
  have h60 : jsMod (60 : Int) 12 = 0 := by decide
  rw [hdef, h60, sub_zero, jsMod_eq_emod _ _ (by omega) (by omega),
    show (KEY_TO_SEMITONE K).getD 0 + 12 = (KEY_TO_SEMITONE K).getD 0 + 12 * 1 by ring,
    Int.add_mul_emod_self_left, Int.emod_eq_of_lt h0 (by omega)]

/-- C9: computeRoot is a total function on key-name strings: it returns
60 + ((semitone + 12) mod 12) from the key table, unknown keys default to
semitone offset 0 and hence root 60, and the result always lies in the
single octave [60, 71]. -/
theorem computeRoot_total_bounded (K : String) :
    computeRoot K = 60 + jsMod ((KEY_TO_SEMITONE K).getD 0 + 12) 12 ∧
    (KEY_TO_SEMITONE K = none → computeRoot K = 60) ∧
    60 ≤ computeRoot K ∧ computeRoot K ≤ 71 := by
  obtain ⟨h0, h11⟩ := keySemitone_bounds K
  have hclosed := computeRoot_closed K
  refine ⟨?_, ?_, by omega, by omega⟩
  · rw [hclosed, jsMod_eq_emod _ _ (by omega) (by omega),
      show (KEY_TO_SEMITONE K).getD 0 + 12 = (KEY_TO_SEMITONE K).getD 0 + 12 * 1 by ring,
      Int.add_mul_emod_self_left, Int.emod_eq_of_lt h0 (by omega)]
  · intro hn
    rw [hclosed, hn]
    rfl

/-- Witness for C9 at a concrete unknown key. -/
theorem computeRoot_total_bounded_witness :
    KEY_TO_SEMITONE ("H") = none ∧ computeRoot ("H") = 60 :=
  ⟨by decide, (computeRoot_total_bounded ("H")).2.1 (by decide)⟩

/-- C5: for every key and every pitch in the 88-key domain, the relative
degree lies in 0..11, the solfege table is defined there, and the mapping
is unchanged when the pitch is raised one octave. -/
theorem solfege_octave_stable (K : String) (P : Int) (h1 : 21 ≤ P) (h2 : P ≤ 108) :
    0 ≤ jsMod (P - computeRoot K + 1200) 12 ∧
    jsMod (P - computeRoot K + 1200) 12 ≤ 11 ∧
    (SOLFEGE_MAP (jsMod (P - computeRoot K + 1200) 12)).isSome = true ∧
    SOLFEGE_MAP (jsMod (P + 12 - computeRoot K + 1200) 12) =
      SOLFEGE_MAP (jsMod (P - computeRoot K + 1200) 12) := by
  obtain ⟨hs0, hs11⟩ := keySemitone_bounds K
  have hclosed := computeRoot_closed K
  have ha : 0 ≤ P - computeRoot K + 1200 := by omega
  have hb : (0 : Int) ≤ 12 := by norm_num
  have hmod : jsMod (P - computeRoot K + 1200) 12 = (P - computeRoot K + 1200) % 12 :=
    jsMod_eq_emod _ _ ha hb
  have hlo : 0 ≤ (P - computeRoot K + 1200) % 12 := Int.emod_nonneg _ (by norm_num)
  have hhi : (P - computeRoot K + 1200) % 12 < 12 := Int.emod_lt_of_pos _ (by norm_num)
  refine ⟨by omega, by omega, ?_, ?_⟩
  · rw [hmod]
    set r := (P - computeRoot K + 1200) % 12 with hr
    interval_cases r <;> decide
  · have ha12 : 0 ≤ P + 12 - computeRoot K + 1200 := by omega
    rw [hmod, jsMod_eq_emod _ _ ha12 hb,
      show P + 12 - computeRoot K + 1200 = (P - computeRoot K + 1200) + 12 * 1 by ring,
      Int.add_mul_emod_self_left]

/-- Witness for C5 at key C and pitch 64. -/
theorem solfege_octave_stable_witness :
    (21 : Int) ≤ 64 ∧ (64 : Int) ≤ 108 ∧
    (SOLFEGE_MAP (jsMod (64 - computeRoot ("C") + 1200) 12)).isSome = true :=
  ⟨by decide, by decide, (solfege_octave_stable ("C") 64 (by decide) (by decide)).2.2.1⟩

/-- C2: the live attempt classification is exact precisely when the
detected pitch equals the target, near precisely when they differ while
their relative degrees against the key root coincide, and wrong precisely
in the remaining case, so the three outcomes partition every pair. -/
theorem classify_partition (root target detected : Int) :
    (classifyOutcome root target detected = AttemptOutcome.exact ↔ detected = target) ∧
    (classifyOutcome root target detected = AttemptOutcome.near ↔
       detected ≠ target ∧
       jsMod (detected - root + 1200) 12 = jsMod (target - root + 1200) 12) ∧
    (classifyOutcome root target detected = AttemptOutcome.wrong ↔
       detected ≠ target ∧
       ¬ jsMod (detected - root + 1200) 12 = jsMod (target - root + 1200) 12) := by
  have hd : ((detected - target).natAbs = 0) ↔ detected = target := by
    rw [Int.natAbs_eq_zero, sub_eq_zero]
  by_cases h1 : detected = target
  · simp [classifyOutcome, hd, h1]
  · by_cases h2 : jsMod (detected - root + 1200) 12 = jsMod (target - root + 1200) 12
    · simp [classifyOutcome, hd, h1, h2]
    · simp [classifyOutcome, hd, h1, h2]

/-- C6: in the first-attempt branch of the live evaluation, the streak
increments only on a true exact outcome, a wrong outcome resets it to 0, a
near outcome resets it only when the strict toggle is on, and a near
outcome with strict off leaves it unchanged. -/
theorem live_streak_policy (strict : Bool) (streak : Nat) (root target detected : Int) :
    (classifyOutcome root target detected = AttemptOutcome.exact →
       liveStreakAfterFirstAttempt strict streak root target detected = streak + 1) ∧
    (classifyOutcome root target detected = AttemptOutcome.wrong →
       liveStreakAfterFirstAttempt strict streak root target detected = 0) ∧
    (classifyOutcome root target detected = AttemptOutcome.near → strict = true →
       liveStreakAfterFirstAttempt strict streak root target detected = 0) ∧
    (classifyOutcome root target detected = AttemptOutcome.near → strict = false →
       liveStreakAfterFirstAttempt strict streak root target detected = streak) := by
  have hd : ((detected - target).natAbs = 0) ↔ detected = target := by
    rw [Int.natAbs_eq_zero, sub_eq_zero]
  have hz : ∀ n : Nat, (if n ≠ 0 then 0 else n) = 0 := by
    intro n
    split_ifs with h
    · rfl
    · omega
  by_cases h1 : detected = target
  · simp [classifyOutcome, liveStreakAfterFirstAttempt, hd, h1]
  · by_cases h2 : jsMod (detected - root + 1200) 12 = jsMod (target - root + 1200) 12
    · cases strict
      · simp [classifyOutcome, liveStreakAfterFirstAttempt, hd, h1, h2]
      · simp [classifyOutcome, liveStreakAfterFirstAttempt, hd, h1, h2, hz]
    · simp [classifyOutcome, liveStreakAfterFirstAttempt, hd, h1, h2, hz]

/-- Witness for C6 across the four policy cases, in key C with target 64. -/
theorem live_streak_policy_witness :
    liveStreakAfterFirstAttempt true 3 60 64 64 = 4 ∧
    liveStreakAfterFirstAttempt true 3 60 64 65 = 0 ∧
    liveStreakAfterFirstAttempt true 3 60 64 76 = 0 ∧
    liveStreakAfterFirstAttempt false 3 60 64 76 = 3 :=
  ⟨(live_streak_policy true 3 60 64 64).1 (by decide),
   (live_streak_policy true 3 60 64 65).2.1 (by decide),
   (live_streak_policy true 3 60 64 76).2.2.1 (by decide) rfl,
   (live_streak_policy false 3 60 64 76).2.2.2 (by decide) rfl⟩

/-- C1 counterexample: for key C at medium tempo the scheduler returns a
length of 2.4 seconds, while 4 chord durations plus 3 gaps would be 2.34
seconds; the source adds the gap after the final chord as well. -/
theorem cadence_total_duration_counterexample :
    (scheduleCadence ("C") CadenceSpeed.medium).2 = 12 / 5 ∧
    4 * (9 / 10 * TEMPO_VALUES CadenceSpeed.medium) +
      3 * (1 / 10 * TEMPO_VALUES CadenceSpeed.medium) = 117 / 50 ∧
    (12 / 5 : ℚ) ≠ 117 / 50 := by
  refine ⟨?_, ?_, ?_⟩
  · simp [scheduleCadence, TEMPO_VALUES]
    norm_num
  · norm_num [TEMPO_VALUES]
  · norm_num

/-- C1 (amended): for every key center and tempo class the returned
cadence length equals 4 chord durations plus 4 gaps, the fixed 10 percent
gap being counted after every chord including the final one; for key C at
medium tempo this total is 2.40 seconds. -/
theorem cadence_total_duration (key : String) (speed : CadenceSpeed) :
    (scheduleCadence key speed).2 =
      4 * (9 / 10 * TEMPO_VALUES speed) + 4 * (1 / 10 * TEMPO_VALUES speed) ∧
    (scheduleCadence ("C") CadenceSpeed.medium).2 = 12 / 5 := by
  constructor
  · simp [scheduleCadence]
    ring
  · simp [scheduleCadence, TEMPO_VALUES]
    norm_num

/-- C4: the scheduler emits exactly 12 tone events forming the triads
I, IV, V, I in that order on the key root, the three notes of each chord
sharing one relative offset, every note lasting 0.9 * tempo, and the chord
offsets advancing by the strictly positive step
chordDuration + 0.1 * tempo. -/
theorem cadence_event_structure (key : String) (speed : CadenceSpeed) :
    (scheduleCadence key speed).1 =
      [⟨computeRoot key, 0, 9 / 10 * TEMPO_VALUES speed⟩,
       ⟨computeRoot key + 4, 0, 9 / 10 * TEMPO_VALUES speed⟩,
       ⟨computeRoot key + 7, 0, 9 / 10 * TEMPO_VALUES speed⟩,
       ⟨computeRoot key + 5, 9 / 10 * TEMPO_VALUES speed + 1 / 10 * TEMPO_VALUES speed,
        9 / 10 * TEMPO_VALUES speed⟩,
       ⟨computeRoot key + 9, 9 / 10 * TEMPO_VALUES speed + 1 / 10 * TEMPO_VALUES speed,
        9 / 10 * TEMPO_VALUES speed⟩,
       ⟨computeRoot key + 12, 9 / 10 * TEMPO_VALUES speed + 1 / 10 * TEMPO_VALUES speed,
        9 / 10 * TEMPO_VALUES speed⟩,
       ⟨computeRoot key + 7, 2 * (9 / 10 * TEMPO_VALUES speed + 1 / 10 * TEMPO_VALUES speed),
        9 / 10 * TEMPO_VALUES speed⟩,
       ⟨computeRoot key + 11, 2 * (9 / 10 * TEMPO_VALUES speed + 1 / 10 * TEMPO_VALUES speed),
        9 / 10 * TEMPO_VALUES speed⟩,
       ⟨computeRoot key + 14, 2 * (9 / 10 * TEMPO_VALUES speed + 1 / 10 * TEMPO_VALUES speed),
        9 / 10 * TEMPO_VALUES speed⟩,
       ⟨computeRoot key, 3 * (9 / 10 * TEMPO_VALUES speed + 1 / 10 * TEMPO_VALUES speed),
        9 / 10 * TEMPO_VALUES speed⟩,
       ⟨computeRoot key + 4, 3 * (9 / 10 * TEMPO_VALUES speed + 1 / 10 * TEMPO_VALUES speed),
        9 / 10 * TEMPO_VALUES speed⟩,
       ⟨computeRoot key + 7, 3 * (9 / 10 * TEMPO_VALUES speed + 1 / 10 * TEMPO_VALUES speed),
        9 / 10 * TEMPO_VALUES speed⟩] ∧
    (scheduleCadence key speed).1.length = 12 ∧
    0 < 9 / 10 * TEMPO_VALUES speed + 1 / 10 * TEMPO_VALUES speed := by
  refine ⟨?_, ?_, ?_⟩
  · simp [scheduleCadence]
    and_intros <;> ring
  · simp [scheduleCadence]
  · cases speed <;> norm_num [TEMPO_VALUES]

theorem draw_cand_bounds (low high : Int) (d : ℚ) (h0 : 0 ≤ d) (h1 : d < 1)
    (hlh : low ≤ high) :
    low ≤ ⌊d * ((high : ℚ) - (low : ℚ) + 1)⌋ + low ∧
    ⌊d * ((high : ℚ) - (low : ℚ) + 1)⌋ + low ≤ high := by
  have hn : (0 : ℚ) < (high : ℚ) - (low : ℚ) + 1 := by
    have hc : (low : ℚ) ≤ (high : ℚ) := by exact_mod_cast hlh
    linarith
  have hlo : 0 ≤ ⌊d * ((high : ℚ) - (low : ℚ) + 1)⌋ :=
    Int.floor_nonneg.mpr (mul_nonneg h0 (le_of_lt hn))
  have hhi : ⌊d * ((high : ℚ) - (low : ℚ) + 1)⌋ < high - low + 1 := by
    rw [Int.floor_lt]
    push_cast
    calc d * ((high : ℚ) - (low : ℚ) + 1)
        < 1 * ((high : ℚ) - (low : ℚ) + 1) := mul_lt_mul_of_pos_right h1 hn
      _ = (high : ℚ) - (low : ℚ) + 1 := by ring
  constructor <;> omega

theorem chooseTargetAux_in_range_filtered (low high keyRoot : Int) (noteMode : NoteMode)
    (prev : Option Int) (draws : Nat → ℚ)
    (hd : ∀ i, 0 ≤ draws i ∧ draws i < 1) (hlh : low ≤ high) :
    ∀ fuel i r, chooseTargetAux low high keyRoot noteMode prev draws fuel i = some r →
      low ≤ r ∧ r ≤ high ∧
      ∃ info, SOLFEGE_MAP (jsMod (r - keyRoot + 1200) 12) = some info ∧
        (noteMode = NoteMode.diatonic → info.diatonic = true) ∧
        (noteMode = NoteMode.non → info.diatonic = false) := by
  intro fuel
  induction fuel with
  | zero =>
    intro i r h
    simp [chooseTargetAux] at h
  | succ n ih =>
    intro i r h
    simp only [chooseTargetAux] at h
    split at h
    · exact ih _ _ h
    · split at h
      next hm => exact ih _ _ h
      next info hm =>
        split at h
        next hd1 => exact ih _ _ h
        next hd1 =>
          split at h
          next hd2 => exact ih _ _ h
          next hd2 =>
            have hrc : ⌊draws i * ((high : ℚ) - (low : ℚ) + 1)⌋ + low = r :=
              Option.some.inj h
            obtain ⟨hb1, hb2⟩ := draw_cand_bounds low high (draws i) (hd i).1 (hd i).2 hlh
            subst hrc
            refine ⟨hb1, hb2, info, hm, ?_, ?_⟩
            · intro hmode
              rcases Bool.eq_false_or_eq_true info.diatonic with hb | hb
              · exact hb
              · exact absurd ⟨hmode, hb⟩ hd1
            · intro hmode
              rcases Bool.eq_false_or_eq_true info.diatonic with hb | hb
              · exact absurd ⟨hmode, hb⟩ hd2
              · exact hb

theorem chooseTargetAux_ne_prev (low high keyRoot : Int) (noteMode : NoteMode)
    (p : Int) (draws : Nat → ℚ) :
    ∀ fuel i r, chooseTargetAux low high keyRoot noteMode (some p) draws fuel i = some r →
      r ≠ p := by
  intro fuel
  induction fuel with
  | zero =>
    intro i r h
    simp [chooseTargetAux] at h
  | succ n ih =>
    intro i r h
    simp only [chooseTargetAux] at h
    split at h
    · exact ih _ _ h
    next hp =>
      split at h
      next hm => exact ih _ _ h
      next info hm =>
        split at h
        next hd1 => exact ih _ _ h
        next hd1 =>
          split at h
          next hd2 => exact ih _ _ h
          next hd2 =>
            have hrc : ⌊draws i * ((high : ℚ) - (low : ℚ) + 1)⌋ + low = r :=
              Option.some.inj h
            intro hrp
            exact hp (by rw [hrc, hrp])

/-- C8: rejection-sampling target selection is bounded by its attempt
budget and never fails abnormally: whenever it returns a pitch, that pitch
lies in [low, high] and its relative degree has a solfege entry matching
the note-mode filter (diatonic only in diatonic mode, non-diatonic only in
non mode, anything in chromatic mode); otherwise it returns none. -/
theorem chooseTarget_safe (low high keyRoot : Int) (noteMode : NoteMode)
    (prev : Option Int) (draws : Nat → ℚ) (maxAttempts : Nat) (r : Int)
    (hd : ∀ i, 0 ≤ draws i ∧ draws i < 1) (hlh : low ≤ high)
    (hr : chooseTarget low high keyRoot noteMode prev draws maxAttempts = some r) :
    low ≤ r ∧ r ≤ high ∧
    ∃ info, SOLFEGE_MAP (jsMod (r - keyRoot + 1200) 12) = some info ∧
      (noteMode = NoteMode.diatonic → info.diatonic = true) ∧
      (noteMode = NoteMode.non → info.diatonic = false) :=
  chooseTargetAux_in_range_filtered low high keyRoot noteMode prev draws hd hlh
    maxAttempts 0 r hr

/-- Witness for C8 on a one-note range in key C, chromatic mode, with the
default budget of 80 attempts. -/
theorem chooseTarget_safe_witness :
    (60 : Int) ≤ 60 ∧
    chooseTarget 60 60 60 NoteMode.chromatic none (fun _ => 0) 80 = some 60 ∧
    (60 : Int) ≤ 60 ∧ (60 : Int) ≤ 60 := by
  have hr : chooseTarget 60 60 60 NoteMode.chromatic none (fun _ => 0) 80 = some 60 := by
    simp [chooseTarget, chooseTargetAux,
      show jsMod 1200 12 = 0 from by decide, SOLFEGE_MAP]
  have hres := chooseTarget_safe 60 60 60 NoteMode.chromatic none (fun _ => 0) 80 60
    (fun i => by norm_num) (by norm_num) hr
  exact ⟨by norm_num, hr, hres.1, hres.2.1⟩

/-- C10: when a previous target is supplied, target selection never
returns it again, whatever the range, note mode, key root, budget, and
random draws are. -/
theorem chooseTarget_avoids_prev (low high keyRoot : Int) (noteMode : NoteMode)
    (p : Int) (draws : Nat → ℚ) (maxAttempts : Nat) (r : Int)
    (hr : chooseTarget low high keyRoot noteMode (some p) draws maxAttempts = some r) :
    r ≠ p :=
  chooseTargetAux_ne_prev low high keyRoot noteMode p draws maxAttempts 0 r hr

/-- Witness for C10: with prev 60 on the range [60, 62] the draw 1/2 gives
61, which indeed differs from 60. -/
theorem chooseTarget_avoids_prev_witness :
    chooseTarget 60 62 60 NoteMode.chromatic (some 60) (fun _ => 1 / 2) 1 = some 61 ∧
    (61 : Int) ≠ 60 := by
  have hfl : ⌊(1 / 2 : ℚ) * (((62 : Int) : ℚ) - ((60 : Int) : ℚ) + 1)⌋ + (60 : Int) = 61 := by
    norm_num [Int.floor_eq_iff]
  have hr : chooseTarget 60 62 60 NoteMode.chromatic (some 60) (fun _ => 1 / 2) 1 = some 61 := by
    simp only [chooseTarget, chooseTargetAux, hfl]
    simp [show jsMod 1201 12 = 1 from by decide, SOLFEGE_MAP]
  exact ⟨hr, chooseTarget_avoids_prev 60 62 60 NoteMode.chromatic 60 (fun _ => 1 / 2) 1 61 hr⟩

theorem init_le_foldl_max (xs : List Int) (b : Int) : b ≤ xs.foldl max b := by
  induction xs generalizing b with
  | nil => simp
  | cons x t ih => exact le_trans (le_max_left b x) (ih (max b x))

theorem mem_le_foldl_max (xs : List Int) (b a : Int) (h : a ∈ xs) : a ≤ xs.foldl max b := by
  induction xs generalizing b with
  | nil => cases h
  | cons x t ih =>
    rcases List.mem_cons.mp h with rfl | h2
    · exact le_trans (le_max_right b a) (init_le_foldl_max t (max b a))
    · exact ih (max b x) h2

theorem mem_le_listMax (l : List Int) (a : Int) (h : a ∈ l) : a ≤ listMax l := by
  cases l with
  | nil => cases h
  | cons x t =>
    rcases List.mem_cons.mp h with rfl | h2
    · exact init_le_foldl_max t a
    · exact mem_le_foldl_max t x a h2

theorem foldl_min_le_init (xs : List Int) (b : Int) : xs.foldl min b ≤ b := by
  induction xs generalizing b with
  | nil => simp
  | cons x t ih => exact le_trans (ih (min b x)) (min_le_left b x)

theorem foldl_min_le_mem (xs : List Int) (b a : Int) (h : a ∈ xs) : xs.foldl min b ≤ a := by
  induction xs generalizing b with
  | nil => cases h
  | cons x t ih =>
    rcases List.mem_cons.mp h with rfl | h2
    · exact le_trans (foldl_min_le_init t (min b a)) (min_le_right b a)
    · exact ih (min b x) h2

theorem listMin_le_mem (l : List Int) (a : Int) (h : a ∈ l) : listMin l ≤ a := by
  cases l with
  | nil => cases h
  | cons x t =>
    rcases List.mem_cons.mp h with rfl | h2
    · exact foldl_min_le_init t a
    · exact foldl_min_le_mem t x a h2

theorem span_ge_abs (l : List Int) (p q : Int) (hp : p ∈ l) (hq : q ∈ l) :
    |p - q| ≤ spanOf l := by
  have h1 := mem_le_listMax l p hp
  have h2 := mem_le_listMax l q hq
  have h3 := listMin_le_mem l p hp
  have h4 := listMin_le_mem l q hq
  rw [abs_sub_le_iff]
  unfold spanOf
  omega

theorem push6_nil (x : Int) : push6 [] x = [x] := rfl

theorem push6_length_le (l : List Int) (x : Int) (h : l.length ≤ 6) :
    (push6 l x).length ≤ 6 := by
  simp only [push6]
  split_ifs with hc <;> simp_all [List.length_append, List.length_drop]

theorem push6_append_pair (pre : List Int) (a x : Int) :
    ∃ pre2, push6 (pre ++ [a]) x = pre2 ++ [a, x] := by
  simp only [push6]
  by_cases h : 6 < (pre ++ [a] ++ [x]).length
  · refine ⟨pre.drop 1, ?_⟩
    rw [if_pos h]
    have hpre : 1 ≤ pre.length := by
      rcases pre with _ | ⟨y, t⟩
      · simp at h
      · simp
    rw [List.append_assoc, List.drop_append_of_le_length hpre]
    simp
  · refine ⟨pre, ?_⟩
    rw [if_neg h]
    simp

theorem runDetect_snoc (P : SensProfile) (l : List Frame) (f : Frame) :
    runDetect P (l ++ [f]) = detectionStep P (runDetect P l) f := by
  unfold runDetect
  rw [List.foldl_append]
  rfl

theorem dynFactor_bounds (midi : Int) : 1 / 2 ≤ dynFactor midi ∧ dynFactor midi ≤ 1 := by
  unfold dynFactor
  split_ifs <;> norm_num

theorem effectivePhase_preserves (s : DState) (f : Frame) :
    (effectivePhase s f).lastDetected = s.lastDetected ∧
    (effectivePhase s f).detectedMidiState = s.detectedMidiState ∧
    (effectivePhase s f).rawMidiState = s.rawMidiState ∧
    (effectivePhase s f).lastStableAt = s.lastStableAt ∧
    (effectivePhase s f).recentMidi = s.recentMidi ∧
    (effectivePhase s f).clarityHistory = s.clarityHistory ∧
    (effectivePhase s f).stableStart = s.stableStart := by
  obtain ⟨rec, ch, ss, ld, dms, raw, lsa, eff⟩ := s
  cases ld with
  | some m => exact ⟨rfl, rfl, rfl, rfl, rfl, rfl, rfl⟩
  | none => exact ⟨rfl, rfl, rfl, rfl, rfl, rfl, rfl⟩

theorem effectivePhase_of_none (s : DState) (f : Frame)
    (h : s.lastDetected = none) : effectivePhase s f = s := by
  obtain ⟨rec, ch, ss, ld, dms, raw, lsa, eff⟩ := s
  replace h : ld = none := h
  subst h
  rfl

theorem stabilityUpdate_cases (P : SensProfile) (s2 : DState) (f : Frame) :
    ((stabilityUpdate P s2 f).lastDetected = s2.lastDetected ∧
     (stabilityUpdate P s2 f).detectedMidiState = s2.detectedMidiState ∧
     (stabilityUpdate P s2 f).lastStableAt = s2.lastStableAt ∧
     (stabilityUpdate P s2 f).recentMidi = s2.recentMidi ∧
     (stabilityUpdate P s2 f).rawMidiState = s2.rawMidiState) ∨
    (s2.lastDetected ≠ some f.midi ∧
     (stabilityUpdate P s2 f).lastDetected = some f.midi ∧
     (stabilityUpdate P s2 f).detectedMidiState = some f.midi ∧
     (stabilityUpdate P s2 f).lastStableAt = f.now ∧
     (stabilityUpdate P s2 f).recentMidi = s2.recentMidi ∧
     (stabilityUpdate P s2 f).rawMidiState = s2.rawMidiState ∧
     P.REQUIRED_STABLE_FRAMES ≤ s2.recentMidi.length ∧
     spanOf s2.recentMidi ≤ P.MAX_JITTER_SPAN ∧
     ∃ t0, (stabilityUpdate P s2 f).stableStart = some t0 ∧
       P.REQUIRED_STABLE_MS ≤ f.now - t0) := by
  obtain ⟨rec, ch, ss, ld, dms, raw, lsa, eff⟩ := s2
  simp only [stabilityUpdate]
  split_ifs with h1 h2 h3 h4 h5 h6
  · right
    obtain ⟨⟨hfr, hsp⟩, t0, he, hm⟩ := h3
    exact ⟨h4, rfl, rfl, rfl, rfl, rfl, hfr, hsp, t0, he, hm⟩
  · exact Or.inl ⟨rfl, rfl, rfl, rfl, rfl⟩
  · exact Or.inl ⟨rfl, rfl, rfl, rfl, rfl⟩
  · right
    obtain ⟨⟨hfr, hsp⟩, t0, he, hm⟩ := h5
    exact ⟨h6, rfl, rfl, rfl, rfl, rfl, hfr, hsp, t0, he, hm⟩
  · exact Or.inl ⟨rfl, rfl, rfl, rfl, rfl⟩
  · exact Or.inl ⟨rfl, rfl, rfl, rfl, rfl⟩
  · exact Or.inl ⟨rfl, rfl, rfl, rfl, rfl⟩

theorem pitchPhase_cases (P : SensProfile) (s : DState) (f : Frame) :
    ((pitchPhase P s f).lastDetected = s.lastDetected ∧
     (pitchPhase P s f).detectedMidiState = s.detectedMidiState ∧
     (pitchPhase P s f).lastStableAt = s.lastStableAt) ∨
    (s.lastDetected ≠ some f.midi ∧
     (pitchPhase P s f).lastDetected = some f.midi ∧
     (pitchPhase P s f).detectedMidiState = some f.midi ∧
     (pitchPhase P s f).lastStableAt = f.now ∧
     gatesPass P f ∧
     P.REQUIRED_STABLE_FRAMES ≤ (push6 s.recentMidi f.midi).length ∧
     spanOf (push6 s.recentMidi f.midi) ≤ P.MAX_JITTER_SPAN ∧
     ∃ t0, (pitchPhase P s f).stableStart = some t0 ∧
       P.REQUIRED_STABLE_MS ≤ f.now - t0) := by
  unfold pitchPhase
  split_ifs with c1 c2 c3 c4
  · have hcases := stabilityUpdate_cases P
      { s with
        rawMidiState := some f.midi
        clarityHistory := push12 s.clarityHistory f.clarity
        recentMidi := push6 s.recentMidi f.midi } f
    rcases hcases with ⟨a1, a2, a3, a4, a5⟩ | ⟨b0, b1, b2, b3, b4, b5, b6, b7, t0, b8, b9⟩
    · exact Or.inl ⟨a1, a2, a3⟩
    · exact Or.inr ⟨b0, b1, b2, b3, ⟨c1, c2.1, c2.2.1, c2.2.2, c3.1, c3.2, c4⟩,
        b6, b7, t0, b8, b9⟩
  · exact Or.inl ⟨rfl, rfl, rfl⟩
  · exact Or.inl ⟨rfl, rfl, rfl⟩
  · exact Or.inl ⟨rfl, rfl, rfl⟩
  · exact Or.inl ⟨rfl, rfl, rfl⟩

theorem push6_ends (l : List Int) (x : Int) : ∃ pre, push6 l x = pre ++ [x] := by
  simp only [push6]
  split_ifs with h
  · refine ⟨l.drop 1, ?_⟩
    have h1 : 1 ≤ l.length := by
      rcases l with _ | ⟨y, t⟩
      · simp at h
      · simp
    rw [List.drop_append_of_le_length h1]
  · exact ⟨l, rfl⟩

theorem pitchPhase_gates_recent (P : SensProfile) (s : DState) (f : Frame)
    (hg : gatesPass P f) :
    (pitchPhase P s f).recentMidi = push6 s.recentMidi f.midi := by
  obtain ⟨g1, g2, g3, g4, g5, g6, g7⟩ := hg
  simp only [pitchPhase]
  rw [if_pos g1, if_pos ⟨g2, g3, g4⟩, if_pos ⟨g5, g6⟩, if_pos g7]
  have hcases := stabilityUpdate_cases P
    { s with
      rawMidiState := some f.midi
      clarityHistory := push12 s.clarityHistory f.clarity
      recentMidi := push6 s.recentMidi f.midi } f
  rcases hcases with ⟨-, -, -, h4, -⟩ | ⟨-, -, -, -, h4, -⟩
  · exact h4
  · exact h4

theorem idlePhase_some (P : SensProfile) (s : DState) (f : Frame) (m : Int)
    (h : (idlePhase P s f).lastDetected = some m) : idlePhase P s f = s := by
  unfold idlePhase at h ⊢
  split_ifs at h ⊢ with hc
  rfl

theorem detectionStep_promotion (P : SensProfile) (s : DState) (f : Frame) (m : Int)
    (h1 : (detectionStep P s f).lastDetected = some m) (h2 : s.lastDetected ≠ some m) :
    m = f.midi ∧ gatesPass P f ∧
    P.REQUIRED_STABLE_FRAMES ≤ (push6 s.recentMidi f.midi).length ∧
    spanOf (push6 s.recentMidi f.midi) ≤ P.MAX_JITTER_SPAN ∧
    ∃ t0, (detectionStep P s f).stableStart = some t0 ∧
      P.REQUIRED_STABLE_MS ≤ f.now - t0 := by
  have hef := effectivePhase_preserves (idlePhase P (pitchPhase P s f) f) f
  have h1a : (idlePhase P (pitchPhase P s f) f).lastDetected = some m := by
    rw [← hef.1]
    exact h1
  have hidle := idlePhase_some P (pitchPhase P s f) f m h1a
  have h1b : (pitchPhase P s f).lastDetected = some m := by
    rw [← hidle]
    exact h1a
  rcases pitchPhase_cases P s f with ⟨ha, -, -⟩ |
      ⟨hne, hld, hdm, hlsa, hgp, hfr, hsp, t0, hss, hms⟩
  · rw [ha] at h1b
    exact absurd h1b h2
  · have hm : m = f.midi := by
      rw [h1b] at hld
      exact Option.some.inj hld
    refine ⟨hm, hgp, hfr, hsp, t0, ?_, hms⟩
    show (detectionStep P s f).stableStart = some t0
    unfold detectionStep
    rw [(effectivePhase_preserves (idlePhase P (pitchPhase P s f) f) f).2.2.2.2.2.2,
      hidle, hss]

theorem detectionStep_no_promote (P : SensProfile) (s : DState) (f : Frame)
    (hld : s.lastDetected = none) (hdm : s.detectedMidiState = none)
    (hls : s.lastStableAt = 0) (hg : gatesPass P f)
    (hb : ¬ (P.REQUIRED_STABLE_FRAMES ≤ (push6 s.recentMidi f.midi).length ∧
             spanOf (push6 s.recentMidi f.midi) ≤ P.MAX_JITTER_SPAN)) :
    (detectionStep P s f).lastDetected = none ∧
    (detectionStep P s f).detectedMidiState = none ∧
    (detectionStep P s f).lastStableAt = 0 ∧
    (detectionStep P s f).recentMidi = push6 s.recentMidi f.midi := by
  have hnp : (pitchPhase P s f).lastDetected = none ∧
      (pitchPhase P s f).detectedMidiState = none ∧
      (pitchPhase P s f).lastStableAt = 0 := by
    rcases pitchPhase_cases P s f with ⟨a, b, c⟩ | ⟨-, -, -, -, -, hfr, hsp, -⟩
    · exact ⟨a.trans hld, b.trans hdm, c.trans hls⟩
    · exact absurd ⟨hfr, hsp⟩ hb
  have hrec := pitchPhase_gates_recent P s f hg
  have hidle : idlePhase P (pitchPhase P s f) f = pitchPhase P s f := by
    unfold idlePhase
    rw [if_neg]
    rintro ⟨hx, -, -⟩
    exact hx hnp.2.2
  have hef := effectivePhase_preserves (pitchPhase P s f) f
  unfold detectionStep
  rw [hidle]
  exact ⟨hef.1.trans hnp.1, hef.2.1.trans hnp.2.1, hef.2.2.2.1.trans hnp.2.2,
    hef.2.2.2.2.1.trans hrec⟩

theorem alternation_invariant (P : SensProfile) (p q : Int) (fr : Nat → Frame)
    (hF : 2 ≤ P.REQUIRED_STABLE_FRAMES)
    (hpq : P.MAX_JITTER_SPAN < |p - q|)
    (hmid : ∀ i, (fr i).midi = if i % 2 = 0 then p else q)
    (hg : ∀ i, gatesPass P (fr i)) :
    ∀ n, (runDetect P ((List.range n).map fr)).lastDetected = none ∧
      (runDetect P ((List.range n).map fr)).detectedMidiState = none ∧
      (runDetect P ((List.range n).map fr)).lastStableAt = 0 ∧
      (runDetect P ((List.range n).map fr)).recentMidi.length ≤ 6 ∧
      (n = 0 → (runDetect P ((List.range n).map fr)).recentMidi = []) ∧
      (∀ k, n = k + 1 → ∃ pre, (runDetect P ((List.range n).map fr)).recentMidi =
        pre ++ [(fr k).midi]) := by
  intro n
  induction n with
  | zero =>
    refine ⟨rfl, rfl, rfl, Nat.zero_le 6, fun _ => rfl, ?_⟩
    intro k hk
    omega
  | succ n ih =>
    obtain ⟨hld, hdm, hls, hlen, h0, hlast⟩ := ih
    have hrw : (List.range (n + 1)).map fr = (List.range n).map fr ++ [fr n] := by
      rw [List.range_succ, List.map_append]
      rfl
    rw [hrw, runDetect_snoc]
    set s := runDetect P ((List.range n).map fr) with hs
    have hb : ¬ (P.REQUIRED_STABLE_FRAMES ≤ (push6 s.recentMidi (fr n).midi).length ∧
        spanOf (push6 s.recentMidi (fr n).midi) ≤ P.MAX_JITTER_SPAN) := by
      rcases Nat.eq_zero_or_pos n with hn0 | hnp
      · subst hn0
        rw [h0 rfl, push6_nil]
        rintro ⟨hA, -⟩
        simp at hA
        omega
      · obtain ⟨k, rfl⟩ : ∃ k, n = k + 1 := ⟨n - 1, by omega⟩
        obtain ⟨pre, hpre⟩ := hlast k rfl
        obtain ⟨pre2, hp2⟩ := push6_append_pair pre ((fr k).midi) ((fr (k + 1)).midi)
        rintro ⟨-, hspan⟩
        rw [hpre, hp2] at hspan
        have hpm : (fr k).midi ∈ pre2 ++ [(fr k).midi, (fr (k + 1)).midi] := by simp
        have hqm : (fr (k + 1)).midi ∈ pre2 ++ [(fr k).midi, (fr (k + 1)).midi] := by simp
        have habs : |(fr k).midi - (fr (k + 1)).midi| ≤
            spanOf (pre2 ++ [(fr k).midi, (fr (k + 1)).midi]) :=
          span_ge_abs _ _ _ hpm hqm
        have hne : |(fr k).midi - (fr (k + 1)).midi| = |p - q| := by
          by_cases hpar : k % 2 = 0
          · rw [hmid k, hmid (k + 1), if_pos hpar, if_neg (by omega)]
          · rw [hmid k, hmid (k + 1), if_neg hpar, if_pos (by omega), abs_sub_comm]
        rw [hne] at habs
        linarith
    have hstep := detectionStep_no_promote P s (fr n) hld hdm hls (hg n) hb
    refine ⟨hstep.1, hstep.2.1, hstep.2.2.1, ?_, ?_, ?_⟩
    · rw [hstep.2.2.2]
      exact push6_length_le _ _ hlen
    · intro hcon
      omega
    · intro k hk
      have hkn : k = n := by omega
      subst hkn
      obtain ⟨pre, hp⟩ := push6_ends s.recentMidi ((fr k).midi)
      exact ⟨pre, by rw [hstep.2.2.2, hp]⟩

/-- C3 (amended): the Stabilized Detected Pitch is promoted to a new value
only when the frame passes every acceptance gate, the recent-pitch window
holds at least REQUIRED_STABLE_FRAMES entries with jitter span at most
MAX_JITTER_SPAN, and at least REQUIRED_STABLE_MS have elapsed since the
stability timer started; and a synthetic frame feed alternating every
frame between two accepted pitches farther apart than MAX_JITTER_SPAN
never sets it. Alternation within the jitter span, such as two adjacent
semitones, can however stabilize, so the unconditional never-stabilizes
reading of the original claim fails. -/
theorem stabilization_guarded :
    (∀ (P : SensProfile) (s : DState) (f : Frame) (m : Int),
        (detectionStep P s f).lastDetected = some m → s.lastDetected ≠ some m →
        m = f.midi ∧ gatesPass P f ∧
        P.REQUIRED_STABLE_FRAMES ≤ (push6 s.recentMidi f.midi).length ∧
        spanOf (push6 s.recentMidi f.midi) ≤ P.MAX_JITTER_SPAN ∧
        ∃ t0, (detectionStep P s f).stableStart = some t0 ∧
          P.REQUIRED_STABLE_MS ≤ f.now - t0) ∧
    (∀ (P : SensProfile) (p q : Int) (fr : Nat → Frame),
        2 ≤ P.REQUIRED_STABLE_FRAMES → P.MAX_JITTER_SPAN < |p - q| →
        (∀ i, (fr i).midi = if i % 2 = 0 then p else q) →
        (∀ i, gatesPass P (fr i)) →
        ∀ n, (runDetect P ((List.range n).map fr)).lastDetected = none ∧
          (runDetect P ((List.range n).map fr)).detectedMidiState = none) :=
  ⟨fun P s f m h1 h2 => detectionStep_promotion P s f m h1 h2,
   fun P p q fr hF hpq hmid hg n =>
     ⟨(alternation_invariant P p q fr hF hpq hmid hg n).1,
      (alternation_invariant P p q fr hF hpq hmid hg n).2.1⟩⟩

theorem none_ne_some_helper {a : Type} (x : a) : (none : Option a) ≠ some x :=
  fun h => Option.noConfusion h

/-- C3 counterexample: a synthetic feed that alternates between the two
distinct pitches 60 and 61 on every frame, at medium sensitivity, sets the
Stabilized Detected Pitch on its third frame, because the two pitches lie
within the jitter span tolerance; the original claim that an alternating
feed never stabilizes is therefore false. -/
theorem stabilization_oscillation_counterexample :
    (⟨1 / 50, 300, 19 / 20, 60, 0⟩ : Frame).midi ≠
      (⟨1 / 50, 300, 19 / 20, 61, 50⟩ : Frame).midi ∧
    (runDetect sensProfileMedium
        [⟨1 / 50, 300, 19 / 20, 60, 0⟩, ⟨1 / 50, 300, 19 / 20, 61, 50⟩,
         ⟨1 / 50, 300, 19 / 20, 60, 100⟩]).detectedMidiState = some 60 := by
  have h1 : detectionStep sensProfileMedium initDState ⟨1 / 50, 300, 19 / 20, 60, 0⟩ =
      ⟨[60], [19 / 20], some 0, none, none, some 60, 0, none⟩ := by
    norm_num [detectionStep, pitchPhase, stabilityUpdate, idlePhase, effectivePhase,
      push6, push12, spanOf, listMax, listMin, qmax, qmin, dynFactor,
      DETECT_MIN, DETECT_MAX, CLEAR_ON_IDLE_MS, sensProfileMedium, initDState,
      max_def, min_def, Option.some_ne_none, none_ne_some_helper, reduceCtorEq]
  have h2 : detectionStep sensProfileMedium
      ⟨[60], [19 / 20], some 0, none, none, some 60, 0, none⟩
      ⟨1 / 50, 300, 19 / 20, 61, 50⟩ =
      ⟨[60, 61], [19 / 20, 19 / 20], some 0, none, none, some 61, 0, none⟩ := by
    norm_num [detectionStep, pitchPhase, stabilityUpdate, idlePhase, effectivePhase,
      push6, push12, spanOf, listMax, listMin, qmax, qmin, dynFactor,
      DETECT_MIN, DETECT_MAX, CLEAR_ON_IDLE_MS, sensProfileMedium,
      max_def, min_def, Option.some_ne_none, none_ne_some_helper, reduceCtorEq]
  have h3 : detectionStep sensProfileMedium
      ⟨[60, 61], [19 / 20, 19 / 20], some 0, none, none, some 61, 0, none⟩
      ⟨1 / 50, 300, 19 / 20, 60, 100⟩ =
      ⟨[60, 61, 60], [19 / 20, 19 / 20, 19 / 20], some 0, some 60, some 60, some 60, 100,
        some 60⟩ := by
    norm_num [detectionStep, pitchPhase, stabilityUpdate, idlePhase, effectivePhase,
      push6, push12, spanOf, listMax, listMin, qmax, qmin, dynFactor,
      DETECT_MIN, DETECT_MAX, CLEAR_ON_IDLE_MS, sensProfileMedium,
      max_def, min_def, Option.some_ne_none, none_ne_some_helper, reduceCtorEq]
  refine ⟨by norm_num, ?_⟩
  show (detectionStep sensProfileMedium (detectionStep sensProfileMedium
      (detectionStep sensProfileMedium initDState ⟨1 / 50, 300, 19 / 20, 60, 0⟩)
      ⟨1 / 50, 300, 19 / 20, 61, 50⟩) ⟨1 / 50, 300, 19 / 20, 60, 100⟩).detectedMidiState
      = some 60
  rw [h1, h2, h3]

/-- Witness for C3 applying the alternation half at the medium profile to
pitches 60 and 70, which are farther apart than the jitter span. -/
theorem stabilization_guarded_witness :
    2 ≤ sensProfileMedium.REQUIRED_STABLE_FRAMES ∧
    sensProfileMedium.MAX_JITTER_SPAN < |(60 : Int) - 70| ∧
    (runDetect sensProfileMedium ((List.range 5).map (fun i =>
        if i % 2 = 0 then (⟨1 / 50, 300, 19 / 20, 60, 0⟩ : Frame)
        else ⟨1 / 50, 300, 19 / 20, 70, 0⟩))).detectedMidiState = none := by
  refine ⟨by norm_num [sensProfileMedium], by norm_num [sensProfileMedium], ?_⟩
  exact (stabilization_guarded.2 sensProfileMedium 60 70
    (fun i =>
      if i % 2 = 0 then (⟨1 / 50, 300, 19 / 20, 60, 0⟩ : Frame)
      else ⟨1 / 50, 300, 19 / 20, 70, 0⟩)
    (by norm_num [sensProfileMedium]) (by norm_num [sensProfileMedium])
    (fun i => by
      by_cases h : i % 2 = 0
      · simp [h]
      · simp [h])
    (fun i => by
      by_cases h : i % 2 = 0
      · norm_num [h, gatesPass, sensProfileMedium, dynFactor, DETECT_MIN, DETECT_MAX]
      · norm_num [h, gatesPass, sensProfileMedium, dynFactor, DETECT_MIN, DETECT_MAX])
    5).2

theorem pitchPhase_still (P : SensProfile) (s : DState) (f : Frame)
    (hA : 0 ≤ P.AMP_THRESHOLD) (h3 : f.rms < P.AMP_THRESHOLD * (1 / 2)) :
    (pitchPhase P s f).lastDetected = s.lastDetected ∧
    (pitchPhase P s f).detectedMidiState = s.detectedMidiState ∧
    (pitchPhase P s f).lastStableAt = s.lastStableAt := by
  rcases pitchPhase_cases P s f with h | ⟨-, -, -, -, hgp, -⟩
  · exact h
  · exfalso
    obtain ⟨-, -, -, -, -, -, hgate⟩ := hgp
    have hdf := (dynFactor_bounds f.midi).1
    have hmul : P.AMP_THRESHOLD * (1 / 2) ≤ P.AMP_THRESHOLD * dynFactor f.midi :=
      mul_le_mul_of_nonneg_left hdf hA
    linarith

theorem pitchPhase_raw (P : SensProfile) (s : DState) (f : Frame) :
    (pitchPhase P s f).rawMidiState = s.rawMidiState ∨
    (pitchPhase P s f).rawMidiState = some f.midi := by
  simp only [pitchPhase]
  split_ifs with c1 c2 c3 c4
  · have hcases := stabilityUpdate_cases P
      { s with
        rawMidiState := some f.midi
        clarityHistory := push12 s.clarityHistory f.clarity
        recentMidi := push6 s.recentMidi f.midi } f
    rcases hcases with ⟨-, -, -, -, h⟩ | ⟨-, -, -, -, -, h, -⟩
    · exact Or.inr h
    · exact Or.inr h
  · exact Or.inr rfl
  · exact Or.inl rfl
  · exact Or.inl rfl
  · exact Or.inl rfl

/-- C7 (amended): once a stabilized pitch is set, if for longer than the
idle timeout no differing stable promotion occurs and the RMS is below
half the amplitude threshold, the Stabilized Detected Pitch becomes null
and the effective provisional display value is cleared as well; the raw
candidate value is however not cleared, so the part of the original claim
that the raw display value is cleared too fails. -/
theorem idle_clear_behavior (P : SensProfile) (s : DState) (f : Frame)
    (hA : 0 ≤ P.AMP_THRESHOLD) (h1 : s.lastStableAt ≠ 0)
    (h2 : CLEAR_ON_IDLE_MS < f.now - s.lastStableAt)
    (h3 : f.rms < P.AMP_THRESHOLD * (1 / 2)) :
    (detectionStep P s f).lastDetected = none ∧
    (detectionStep P s f).detectedMidiState = none ∧
    (detectionStep P s f).effectiveMidi = none ∧
    (s.rawMidiState ≠ none → (detectionStep P s f).rawMidiState ≠ none) := by
  obtain ⟨hp1, hp2, hp3⟩ := pitchPhase_still P s f hA h3
  have hcond : (pitchPhase P s f).lastStableAt ≠ 0 ∧
      CLEAR_ON_IDLE_MS < f.now - (pitchPhase P s f).lastStableAt ∧
      f.rms < P.AMP_THRESHOLD * (1 / 2) :=
    ⟨by rw [hp3]; exact h1, by rw [hp3]; exact h2, h3⟩
  have hfire : idlePhase P (pitchPhase P s f) f =
      { pitchPhase P s f with
        lastStableAt := 0
        lastDetected := none
        detectedMidiState := none
        effectiveMidi := none } := by
    unfold idlePhase
    rw [if_pos hcond]
  have heq : effectivePhase
      { pitchPhase P s f with
        lastStableAt := 0
        lastDetected := none
        detectedMidiState := none
        effectiveMidi := none } f =
      { pitchPhase P s f with
        lastStableAt := 0
        lastDetected := none
        detectedMidiState := none
        effectiveMidi := none } :=
    effectivePhase_of_none _ f rfl
  unfold detectionStep
  rw [hfire, heq]
  refine ⟨rfl, rfl, rfl, ?_⟩
  intro hraw
  show (pitchPhase P s f).rawMidiState ≠ none
  rcases pitchPhase_raw P s f with h | h
  · rw [h]
    exact hraw
  · rw [h]
    exact fun hc => Option.noConfusion hc

/-- C7 counterexample: after a pitch stabilizes and the feed goes silent
past the idle timeout, the run clears the stabilized pitch and the
effective display, but the raw candidate value remains set, so the claim
that the raw provisional display value is cleared as well is false. -/
theorem idle_clear_counterexample :
    (runDetect sensProfileMedium
        [⟨1 / 50, 300, 19 / 20, 60, 0⟩, ⟨1 / 50, 300, 19 / 20, 60, 50⟩,
         ⟨1 / 50, 300, 19 / 20, 60, 100⟩,
         ⟨1 / 1000, 300, 19 / 20, 60, 1600⟩]).detectedMidiState = none ∧
    (runDetect sensProfileMedium
        [⟨1 / 50, 300, 19 / 20, 60, 0⟩, ⟨1 / 50, 300, 19 / 20, 60, 50⟩,
         ⟨1 / 50, 300, 19 / 20, 60, 100⟩,
         ⟨1 / 1000, 300, 19 / 20, 60, 1600⟩]).effectiveMidi = none ∧
    (runDetect sensProfileMedium
        [⟨1 / 50, 300, 19 / 20, 60, 0⟩, ⟨1 / 50, 300, 19 / 20, 60, 50⟩,
         ⟨1 / 50, 300, 19 / 20, 60, 100⟩,
         ⟨1 / 1000, 300, 19 / 20, 60, 1600⟩]).rawMidiState = some 60 ∧
    (some 60 : Option Int) ≠ none := by
  have h1 : detectionStep sensProfileMedium initDState ⟨1 / 50, 300, 19 / 20, 60, 0⟩ =
      ⟨[60], [19 / 20], some 0, none, none, some 60, 0, none⟩ := by
    norm_num [detectionStep, pitchPhase, stabilityUpdate, idlePhase, effectivePhase,
      push6, push12, spanOf, listMax, listMin, qmax, qmin, dynFactor,
      DETECT_MIN, DETECT_MAX, CLEAR_ON_IDLE_MS, sensProfileMedium, initDState,
      max_def, min_def, Option.some_ne_none, none_ne_some_helper, reduceCtorEq]
  have h2 : detectionStep sensProfileMedium
      ⟨[60], [19 / 20], some 0, none, none, some 60, 0, none⟩
      ⟨1 / 50, 300, 19 / 20, 60, 50⟩ =
      ⟨[60, 60], [19 / 20, 19 / 20], some 0, none, none, some 60, 0, none⟩ := by
    norm_num [detectionStep, pitchPhase, stabilityUpdate, idlePhase, effectivePhase,
      push6, push12, spanOf, listMax, listMin, qmax, qmin, dynFactor,
      DETECT_MIN, DETECT_MAX, CLEAR_ON_IDLE_MS, sensProfileMedium,
      max_def, min_def, Option.some_ne_none, none_ne_some_helper, reduceCtorEq]
  have h3 : detectionStep sensProfileMedium
      ⟨[60, 60], [19 / 20, 19 / 20], some 0, none, none, some 60, 0, none⟩
      ⟨1 / 50, 300, 19 / 20, 60, 100⟩ =
      ⟨[60, 60, 60], [19 / 20, 19 / 20, 19 / 20], some 0, some 60, some 60, some 60, 100,
        some 60⟩ := by
    norm_num [detectionStep, pitchPhase, stabilityUpdate, idlePhase, effectivePhase,
      push6, push12, spanOf, listMax, listMin, qmax, qmin, dynFactor,
      DETECT_MIN, DETECT_MAX, CLEAR_ON_IDLE_MS, sensProfileMedium,
      max_def, min_def, Option.some_ne_none, none_ne_some_helper, reduceCtorEq]
  have h4 : detectionStep sensProfileMedium
      ⟨[60, 60, 60], [19 / 20, 19 / 20, 19 / 20], some 0, some 60, some 60, some 60, 100,
        some 60⟩
      ⟨1 / 1000, 300, 19 / 20, 60, 1600⟩ =
      ⟨[60, 60, 60], [19 / 20, 19 / 20, 19 / 20], some 0, none, none, some 60, 0,
        none⟩ := by
    norm_num [detectionStep, pitchPhase, stabilityUpdate, idlePhase, effectivePhase,
      push6, push12, spanOf, listMax, listMin, qmax, qmin, dynFactor,
      DETECT_MIN, DETECT_MAX, CLEAR_ON_IDLE_MS, sensProfileMedium,
      max_def, min_def, Option.some_ne_none, none_ne_some_helper, reduceCtorEq]
  have hrun : runDetect sensProfileMedium
      [⟨1 / 50, 300, 19 / 20, 60, 0⟩, ⟨1 / 50, 300, 19 / 20, 60, 50⟩,
       ⟨1 / 50, 300, 19 / 20, 60, 100⟩, ⟨1 / 1000, 300, 19 / 20, 60, 1600⟩] =
      ⟨[60, 60, 60], [19 / 20, 19 / 20, 19 / 20], some 0, none, none, some 60, 0,
        none⟩ := by
    show detectionStep sensProfileMedium (detectionStep sensProfileMedium
        (detectionStep sensProfileMedium (detectionStep sensProfileMedium initDState
          ⟨1 / 50, 300, 19 / 20, 60, 0⟩) ⟨1 / 50, 300, 19 / 20, 60, 50⟩)
        ⟨1 / 50, 300, 19 / 20, 60, 100⟩) ⟨1 / 1000, 300, 19 / 20, 60, 1600⟩ = _
    rw [h1, h2, h3, h4]
  rw [hrun]
  exact ⟨rfl, rfl, rfl, fun hc => Option.noConfusion hc⟩

/-- Witness for C7 at the medium profile: a state that stabilized pitch 60
at time 100, with raw candidate 60 still published, receives a near-silent
frame at time 1600. -/
theorem idle_clear_behavior_witness :
    (0 : ℚ) ≤ sensProfileMedium.AMP_THRESHOLD ∧
    (⟨[60, 60, 60], [19 / 20, 19 / 20, 19 / 20], some 0, some 60, some 60, some 60, 100,
      some 60⟩ : DState).lastStableAt ≠ 0 ∧
    CLEAR_ON_IDLE_MS <
      (⟨1 / 1000, 300, 19 / 20, 60, 1600⟩ : Frame).now -
      (⟨[60, 60, 60], [19 / 20, 19 / 20, 19 / 20], some 0, some 60, some 60, some 60, 100,
        some 60⟩ : DState).lastStableAt ∧
    (detectionStep sensProfileMedium
      ⟨[60, 60, 60], [19 / 20, 19 / 20, 19 / 20], some 0, some 60, some 60, some 60, 100,
        some 60⟩
      ⟨1 / 1000, 300, 19 / 20, 60, 1600⟩).lastDetected = none ∧
    (detectionStep sensProfileMedium
      ⟨[60, 60, 60], [19 / 20, 19 / 20, 19 / 20], some 0, some 60, some 60, some 60, 100,
        some 60⟩
      ⟨1 / 1000, 300, 19 / 20, 60, 1600⟩).rawMidiState ≠ none := by
  have h := idle_clear_behavior sensProfileMedium
    ⟨[60, 60, 60], [19 / 20, 19 / 20, 19 / 20], some 0, some 60, some 60, some 60, 100,
      some 60⟩
    ⟨1 / 1000, 300, 19 / 20, 60, 1600⟩
    (by norm_num [sensProfileMedium]) (by norm_num) (by norm_num [CLEAR_ON_IDLE_MS])
    (by norm_num [sensProfileMedium])
  exact ⟨by norm_num [sensProfileMedium], by norm_num, by norm_num [CLEAR_ON_IDLE_MS],
    h.1, h.2.2.2 (by simp)⟩

end EarTraining
